import Mathlib

/-!
Verification of the HCS AI auditor agent: a shallow embedding of the
message-driven session orchestrator with chunked large-payload delivery
(src/agent.js, src/audit-tools.js, src/hedera-hcs.js, src/utils.js).

External collaborators (the Hedera SDK client, receipts of ledger
transactions, the reasoning engine, Docker) are modelled as explicit
environment records; transport side effects are modelled as explicit
event traces.  Bytes are modelled as `List Nat`; JavaScript null and
undefined are modelled as `Option.none`, with JS truthiness made
explicit where the source relies on it.
-/

namespace HcsAudit

/-- JS truthiness for an optional string: null/undefined and the empty
string are falsy, every other string is truthy. -/
def jsFalsy : Option String → Bool
  | none => true
  | some s => s.isEmpty

/-- JS String.prototype.includes: substring test. -/
def strIncludes (s pat : String) : Bool :=
  decide (pat.toList <:+: s.toList)

/-- JS logical or on optional strings: the first operand if truthy, else
the second (used for `args.originalContractFileName || fetchedMainFilePath`). -/
def jsOr (a b : Option String) : Option String :=
  if jsFalsy a then b else a

/-- A JavaScript exception, as observed by a try/catch. -/
inductive JsError
  | err (msg : String)
  | referenceError (msg : String)
deriving DecidableEq

/-- The message of a JsError (error.message in the source logs). -/
def JsError.message : JsError → String
  | .err m => m
  | .referenceError m => m

/-! ## ChannelTransport frame append: submitMessageToTopic (src/hedera-hcs.js L356-L405) -/

/-- MAX_MESSAGE_SIZE_BYTES (src/hedera-hcs.js L22): the transport frame limit. -/
def MAX_MESSAGE_SIZE_BYTES : Nat := 1024

/-- Environment for one submitMessageToTopic call: the collaborator behaviour
of the Hedera client and the receipt of the submit transaction. -/
structure SubmitEnv where
  /-- initializeHederaClient returned a client (the falsy-client early return at L359-L362). -/
  clientOk : Bool
  /-- transaction.execute / getReceipt did not throw (network errors throw). -/
  execOk : Bool
  /-- receipt.status.toString() at L386. -/
  receiptStatus : String
  /-- receipt.topicSequenceNumber at L390 (none models a missing number; 0 is accepted by the source). -/
  seqNum : Option Nat

/-- The try block of submitMessageToTopic (src/hedera-hcs.js L357-L397).
`.ok none` is the early `return null` at L361; `.error` is a throw that the
catch at L398 will swallow. -/
def submitBody (env : SubmitEnv) (topicId : Option String) (message : Option (List Nat)) :
    Except JsError (Option Nat) :=
  if env.clientOk = false then .ok none
  else if jsFalsy topicId then .error (.err "Topic ID must be provided.")
  else if message = none then .error (.err "Message content must be provided.")
  else if MAX_MESSAGE_SIZE_BYTES < (message.getD []).length then
    .error (.err "Message size exceeds the maximum allowed size for a single submission. Use inscribeDataToTopic for larger messages.")
  else if env.execOk = false then .error (.err "transaction execution failed")
  else if env.receiptStatus ≠ "SUCCESS" then
    .error (.err "Message submission failed with status")
  else
    match env.seqNum with
    | none => .error (.err "Sequence number was not found in the receipt. Message submission might have failed implicitly.")
    | some s => .ok (some s)

/-- submitMessageToTopic (src/hedera-hcs.js L356-L405): the whole body sits in a
try/catch whose catch returns null, so the function returns a sequence number or
null and never propagates an exception. -/
def submitMessageToTopic (env : SubmitEnv) (topicId : Option String)
    (message : Option (List Nat)) : Option Nat :=
  match submitBody env topicId message with
  | .ok r => r
  | .error _ => none

/-! ## ChunkedChannelStore: inscribeDataToTopic (src/hedera-hcs.js L407-L476) -/

/-- Buffer.subarray(start, end): the bytes from index start (inclusive) to
end (exclusive), clamped to the buffer. -/
def jsSubarray (b : List Nat) (s e : Nat) : List Nat :=
  (b.drop s).take (e - s)

/-- numChunks = Math.ceil(dataBuffer.length / MAX_MESSAGE_SIZE_BYTES) (L444). -/
def numChunks (len : Nat) : Nat :=
  (len + (MAX_MESSAGE_SIZE_BYTES - 1)) / MAX_MESSAGE_SIZE_BYTES

/-- The chunk submitted at loop index i (src/hedera-hcs.js L448-L450):
dataBuffer.subarray(i*MAX, min(i*MAX + MAX, dataBuffer.length)). -/
def chunkAt (b : List Nat) (i : Nat) : List Nat :=
  jsSubarray b (i * MAX_MESSAGE_SIZE_BYTES)
    (min (i * MAX_MESSAGE_SIZE_BYTES + MAX_MESSAGE_SIZE_BYTES) b.length)

/-- Environment for one inscribeDataToTopic call. -/
structure InscribeEnv where
  /-- initializeHederaClient returned a client (L410-L414). -/
  clientOk : Bool
  /-- createReceipt.status === Status.Success for the topic creation (L430). -/
  createOk : Bool
  /-- createReceipt.topicId (L430-L433); none models a missing topic id. -/
  createTopicId : Option String
  /-- receipt status of the chunk-i submit transaction (L461): true = Status.Success. -/
  appendOk : Nat → Bool

/-- The chunk submission loop (src/hedera-hcs.js L447-L466), over the list of
chunk indices.  Each executed submit is recorded in the trace; a non-success
receipt throws, aborting the loop (first component false). -/
def inscribeLoop (appendOk : Nat → Bool) (b : List Nat) : List Nat → Bool × List (List Nat)
  | [] => (true, [])
  | i :: rest =>
    let chunk := chunkAt b i
    if appendOk i then
      let r := inscribeLoop appendOk b rest
      (r.1, chunk :: r.2)
    else
      (false, [chunk])

/-- inscribeDataToTopic (src/hedera-hcs.js L407-L476): creates a fresh HCS-1
data topic, returns it immediately for empty data, else submits the chunks in
order of increasing index; any throw is caught at L471 and yields null.
Returns (the returned topic id or null, the trace of submitted frames). -/
def inscribeDataToTopic (env : InscribeEnv) (data : List Nat) :
    Option String × List (List Nat) :=
  if env.clientOk = false then (none, [])
  else
    match env.createTopicId, env.createOk with
    | some tid, true =>
      if data.length = 0 then (some tid, [])
      else
        let r := inscribeLoop env.appendOk data (List.range (numChunks data.length))
        if r.1 then (some tid, r.2) else (none, r.2)
    | _, _ => (none, [])

/-- Modelled from the spec: resolve(reference) is the consumer-side inverse of
store, absent from this repository; spec section 4.2 defines it as reading all
frames of the referenced channel in append order and concatenating them. -/
def resolveFrames (frames : List (List Nat)) : List Nat :=
  frames.flatten

/-! ### Chunking lemmas -/

theorem inscribeLoop_all_ok (appendOk : Nat → Bool) (b : List Nat)
    (hap : appendOk = fun _ => true) :
    ∀ l : List Nat, inscribeLoop appendOk b l = (true, l.map (chunkAt b)) := by
  subst hap
  intro l
  induction l with
  | nil => rfl
  | cons i rest ih => simp [inscribeLoop, ih]

theorem chunkAt_eq (b : List Nat) (i : Nat) :
    chunkAt b i = (b.drop (i * 1024)).take 1024 := by
  unfold chunkAt jsSubarray MAX_MESSAGE_SIZE_BYTES
  rw [List.take_eq_take]
  simp only [List.length_drop]
  omega

theorem join_range_chunks (m : Nat) (hm : 0 < m) :
    ∀ (k : Nat) (b : List Nat), b.length ≤ k * m →
      ((List.range k).map (fun i => (b.drop (i * m)).take m)).flatten = b := by
  intro k
  induction k with
  | zero =>
    intro b hb
    simp only [Nat.zero_mul, Nat.le_zero, List.length_eq_zero] at hb
    simp [hb]
  | succ k ih =>
    intro b hb
    rw [Nat.succ_mul] at hb
    have hcomp : ((fun i => (b.drop (i * m)).take m) ∘ Nat.succ) =
        (fun i => ((b.drop m).drop (i * m)).take m) := by
      funext i
      simp only [Function.comp_apply, List.drop_drop, Nat.succ_mul]
      congr 2
      omega
    rw [List.range_succ_eq_map, List.map_cons, List.map_map, hcomp]
    simp only [List.flatten_cons, Nat.zero_mul, List.drop_zero]
    rw [ih (b.drop m) (by simp only [List.length_drop]; omega)]
    exact List.take_append_drop m b

/-- C1: for every payload b of length n > 0 stored via inscribeDataToTopic in an
environment where the client, the topic creation and every chunk submit succeed,
the payload is split into exactly ceil(n / 1024) frames, submitted in order of
increasing chunk index to the freshly created topic; frame i equals
b.subarray(i*1024, min((i+1)*1024, n)), and concatenating the frames in append
order reconstructs b. -/
theorem C1_inscribe_chunking (env : InscribeEnv) (b : List Nat) (tid : String)
    (hlen : 0 < b.length)
    (hc : env.clientOk = true) (hcr : env.createOk = true)
    (hid : env.createTopicId = some tid)
    (hap : env.appendOk = fun _ => true) :
    (inscribeDataToTopic env b).1 = some tid ∧
    (inscribeDataToTopic env b).2.length = numChunks b.length ∧
    (∀ i, i < numChunks b.length →
      (inscribeDataToTopic env b).2.getD i [] =
        jsSubarray b (i * MAX_MESSAGE_SIZE_BYTES)
          (min (i * MAX_MESSAGE_SIZE_BYTES + MAX_MESSAGE_SIZE_BYTES) b.length)) ∧
    (inscribeDataToTopic env b).2.flatten = b := by
  have hrun : inscribeDataToTopic env b =
      (some tid, (List.range (numChunks b.length)).map (chunkAt b)) := by
    unfold inscribeDataToTopic
    rw [hc, hid, hcr]
    simp only [Bool.true_eq_false, if_false]
    rw [if_neg (by omega), inscribeLoop_all_ok env.appendOk b hap]
    simp
  refine ⟨by rw [hrun], ?_, ?_, ?_⟩
  · rw [hrun]
    simp
  · intro i hi
    rw [hrun]
    simp only
    rw [List.getD_eq_getElem _ _ (by simpa using hi)]
    simp only [List.getElem_map, List.getElem_range]
    rfl
  · rw [hrun]
    simp only
    have hb : b.length ≤ numChunks b.length * 1024 := by
      unfold numChunks MAX_MESSAGE_SIZE_BYTES
      omega
    calc ((List.range (numChunks b.length)).map (chunkAt b)).flatten
        = ((List.range (numChunks b.length)).map
            (fun i => (b.drop (i * 1024)).take 1024)).flatten := by
          congr 1
          exact List.map_congr_left (fun i _ => chunkAt_eq b i)
      _ = b := join_range_chunks 1024 (by omega) _ b hb

theorem C1_inscribe_chunking_witness :
    0 < (List.replicate 1500 7).length ∧
    (inscribeDataToTopic ⟨true, true, some "0.0.42", fun _ => true⟩ (List.replicate 1500 7)).1 = some "0.0.42" ∧
    (inscribeDataToTopic ⟨true, true, some "0.0.42", fun _ => true⟩ (List.replicate 1500 7)).2.length = numChunks (List.replicate 1500 7).length ∧
    (∀ i, i < numChunks (List.replicate 1500 7).length →
      (inscribeDataToTopic ⟨true, true, some "0.0.42", fun _ => true⟩ (List.replicate 1500 7)).2.getD i [] =
        jsSubarray (List.replicate 1500 7) (i * MAX_MESSAGE_SIZE_BYTES)
          (min (i * MAX_MESSAGE_SIZE_BYTES + MAX_MESSAGE_SIZE_BYTES) (List.replicate 1500 7).length)) ∧
    (inscribeDataToTopic ⟨true, true, some "0.0.42", fun _ => true⟩ (List.replicate 1500 7)).2.flatten = List.replicate 1500 7 :=
  ⟨by rw [List.length_replicate]; omega, C1_inscribe_chunking ⟨true, true, some "0.0.42", fun _ => true⟩
    (List.replicate 1500 7) "0.0.42" (by rw [List.length_replicate]; omega) rfl rfl rfl rfl⟩

/-- C8: storing an empty payload creates a fresh topic, submits zero frames and
returns the new (empty) topic id immediately (src/hedera-hcs.js L438-L441), and
the reference still resolves to the empty value (zero frames concatenate to
empty bytes). -/
theorem C8_inscribe_empty (env : InscribeEnv) (tid : String)
    (hc : env.clientOk = true) (hcr : env.createOk = true)
    (hid : env.createTopicId = some tid) :
    inscribeDataToTopic env [] = (some tid, []) ∧
    resolveFrames (inscribeDataToTopic env []).2 = [] := by
  have h : inscribeDataToTopic env [] = (some tid, []) := by
    unfold inscribeDataToTopic
    rw [hc, hid, hcr]
    rfl
  exact ⟨h, by rw [h]; rfl⟩

theorem C8_inscribe_empty_witness :
    inscribeDataToTopic ⟨true, true, some "0.0.42", fun _ => true⟩ [] = (some "0.0.42", []) ∧
    resolveFrames (inscribeDataToTopic ⟨true, true, some "0.0.42", fun _ => true⟩ []).2 = [] :=
  C8_inscribe_empty ⟨true, true, some "0.0.42", fun _ => true⟩ "0.0.42" rfl rfl rfl

/-- C10: submitMessageToTopic is total with result in Option: every throw of its
body is caught internally and yields null, so callers observe failure only as a
null return; in particular an oversized message, a falsy topic id, a missing
message and a non-SUCCESS receipt status all yield null. -/
theorem C10_submit_total (env : SubmitEnv) (topicId : Option String)
    (message : Option (List Nat)) :
    ((∃ s, submitMessageToTopic env topicId message = some s) ∨
      submitMessageToTopic env topicId message = none) ∧
    (∀ e, submitBody env topicId message = .error e →
      submitMessageToTopic env topicId message = none) ∧
    (jsFalsy topicId = true → submitMessageToTopic env topicId message = none) ∧
    (message = none → submitMessageToTopic env topicId message = none) ∧
    (∀ bs, message = some bs → MAX_MESSAGE_SIZE_BYTES < bs.length →
      submitMessageToTopic env topicId message = none) ∧
    (env.receiptStatus ≠ "SUCCESS" → submitMessageToTopic env topicId message = none) := by
  refine ⟨?_, ?_, ?_, ?_, ?_, ?_⟩
  · cases h : submitMessageToTopic env topicId message with
    | none => exact Or.inr rfl
    | some s => exact Or.inl ⟨s, rfl⟩
  · intro e he
    unfold submitMessageToTopic
    rw [he]
  · intro ht
    unfold submitMessageToTopic submitBody
    split_ifs <;> (try split) <;> simp_all
  · intro hm
    unfold submitMessageToTopic submitBody
    split_ifs <;> (try split) <;> simp_all
  · intro bs hbs hlen
    subst hbs
    unfold submitMessageToTopic submitBody
    split_ifs <;> (try split) <;> simp_all
  · intro hst
    unfold submitMessageToTopic submitBody
    split_ifs <;> (try split) <;> simp_all

theorem C10_submit_total_witness :
    submitMessageToTopic ⟨true, true, "SUCCESS", some 3⟩ (some "0.0.5") (some (List.replicate 1025 0)) = none ∧
    submitMessageToTopic ⟨true, true, "SUCCESS", some 3⟩ none (some [1]) = none ∧
    submitMessageToTopic ⟨true, true, "INVALID_TOPIC_ID", some 3⟩ (some "0.0.5") (some [1]) = none :=
  ⟨(C10_submit_total ⟨true, true, "SUCCESS", some 3⟩ (some "0.0.5") (some (List.replicate 1025 0))).2.2.2.2.1
      (List.replicate 1025 0) rfl (by rw [List.length_replicate]; decide),
    (C10_submit_total ⟨true, true, "SUCCESS", some 3⟩ none (some [1])).2.2.1 rfl,
    (C10_submit_total ⟨true, true, "INVALID_TOPIC_ID", some 3⟩ (some "0.0.5") (some [1])).2.2.2.2.2
      (by decide)⟩

/-! ## RequestRouter: handleConnectionRequest (src/hedera-hcs.js L84-L158) -/

/-- A word character of the JS regex class backslash-w: ASCII letters, digits
and underscore. -/
def isWordChar (c : Char) : Bool :=
  c.isAlphanum || c = '_'

/-- Try to match the regex body 0 backslash-period 0 backslash-period digits+
followed by a word boundary at the head of the character list; returns the
digit run on success. -/
def matchCid : List Char → Option (List Char)
  | '0' :: '.' :: '0' :: '.' :: rest =>
    let ds := rest.takeWhile Char.isDigit
    if ds.isEmpty then none
    else
      match rest.drop ds.length with
      | [] => some ds
      | c :: _ => if isWordChar c then none else some ds
  | _ => none

/-- Left-to-right scan for the first match of the pattern, tracking whether the
previous character is a word character (for the leading word boundary). -/
def scanCid : Bool → List Char → Option String
  | _, [] => none
  | prevWord, c :: rest =>
    if prevWord = false then
      match matchCid (c :: rest) with
      | some ds => some ("0.0." ++ String.mk ds)
      | none => scanCid (isWordChar c) rest
    else scanCid (isWordChar c) rest

/-- The contract-id extraction at src/hedera-hcs.js L136-L137: the first match
of the regex for a word-bounded 0.0.digits token anywhere in the query. -/
def extractContractId (q : String) : Option String :=
  scanCid false q.toList

/-- The parsed JSON payload of an inbound envelope, with the fields
handleConnectionRequest reads (absent fields are none). -/
structure Hcs10Msg where
  p : Option String
  op : Option String
  operator_id : Option String
  m : Option String
deriving DecidableEq

/-- The RequestRouter terminal state of spec section 4.3 reached by one
handleConnectionRequest run. -/
inductive RouterOutcome
  | skipped
  | failed
  | dispatched
deriving DecidableEq

/-- A transport side effect performed by the router. -/
inductive TEffect
  | createdChannel (topicId : String)
  | submittedMsg (topicId : String) (op : String) (ok : Bool)
  | dispatchedAudit (contractId : String) (replyTopicId : String)
deriving DecidableEq

/-- Environment for one handleConnectionRequest run: the collaborator
behaviour of topic creation and of the two possible message submissions.
The submission results are the Option Nat values that the embedded
submitMessageToTopic returns (it is total and never throws). -/
structure RouterEnv where
  /-- createConnectionTopic result (none = it threw, caught at L154). -/
  createTopic : Option String
  /-- Result of submitMessageToTopic for the connection_created publish (L129). -/
  ackResult : Option Nat
  /-- Result of submitMessageToTopic for the inline parse-error publish (L141). -/
  errResult : Option Nat

/-- handleConnectionRequest (src/hedera-hcs.js L84-L158), after Buffer decoding
and JSON parsing of the message contents (a parse failure is caught at L154
with no side effect).  Early returns before channel creation are the Skipped
state; aborts after it are Failed.  NOTE: the try/catch around the
connection_created publish at L128-L134 can never observe a failure, because
submitMessageToTopic returns null instead of throwing; execution therefore
continues to contract-id extraction and dispatch even when the ack publish
failed (ackResult = none). -/
def handleConnectionRequest (agentInbound : String) (msg : Hcs10Msg) (seq : Nat)
    (renv : RouterEnv) : RouterOutcome × List TEffect :=
  if msg.p ≠ some "hcs-10" ∨ msg.op ≠ some "connection_request" then (.skipped, [])
  else if jsFalsy msg.operator_id = true ∨
      strIncludes (msg.operator_id.getD "") "@" = false then (.skipped, [])
  else if jsFalsy msg.m then (.skipped, [])
  else
    match renv.createTopic with
    | none => (.failed, [])
    | some ctid =>
      let effs := [TEffect.createdChannel ctid,
        TEffect.submittedMsg agentInbound "connection_created" (renv.ackResult ≠ none)]
      match extractContractId (msg.m.getD "") with
      | none =>
        (.failed, effs ++ [TEffect.submittedMsg ctid "message" (renv.errResult ≠ none)])
      | some cid =>
        (.dispatched, effs ++ [TEffect.dispatchedAudit cid ctid])

/-- C9: an envelope whose payload is not an hcs-10 connection_request (wrong
protocol tag or wrong op field) makes handleConnectionRequest return at
src/hedera-hcs.js L94-L97 with zero transport side effects, in the Skipped
state. -/
theorem C9_router_skips_non_requests (agentInbound : String) (msg : Hcs10Msg)
    (seq : Nat) (renv : RouterEnv)
    (h : msg.p ≠ some "hcs-10" ∨ msg.op ≠ some "connection_request") :
    handleConnectionRequest agentInbound msg seq renv = (.skipped, []) := by
  unfold handleConnectionRequest
  rw [if_pos h]

theorem C9_router_skips_non_requests_witness :
    handleConnectionRequest "0.0.500"
      ⟨some "hcs-10", some "message", some "0.0.111@0.0.222", some "hello"⟩ 7
      ⟨some "0.0.777", some 1, some 2⟩ = (.skipped, []) :=
  C9_router_skips_non_requests "0.0.500"
    ⟨some "hcs-10", some "message", some "0.0.111@0.0.222", some "hello"⟩ 7
    ⟨some "0.0.777", some 1, some 2⟩ (Or.inr (by decide))

/-- C5 (code bug): a valid connection_request whose connection_created publish
fails is nevertheless processed to completion: submitMessageToTopic returns
null on failure rather than throwing, so the catch at src/hedera-hcs.js
L131-L134 that would abort the handler is dead code, the contract id is
extracted and the request is dispatched to the session orchestrator. -/
theorem C5_ack_failure_still_dispatches :
    handleConnectionRequest "0.0.500"
      ⟨some "hcs-10", some "connection_request", some "0.0.111@0.0.222",
        some "audit 0.0.999 please"⟩ 7 ⟨some "0.0.777", none, none⟩ =
    (.dispatched,
      [.createdChannel "0.0.777",
       .submittedMsg "0.0.500" "connection_created" false,
       .dispatchedAudit "0.0.999" "0.0.777"]) := by
  decide

/-! ## ResumeCheckpoint: saveLastTimestamp (src/hedera-hcs.js L160-L172) and
the subscription resume point (L222-L229) -/

/-- saveLastTimestamp (src/hedera-hcs.js L160-L172) as a transition on the
in-memory checkpoint, returning the new checkpoint and the list of persisted
writes (at most one).  A none argument models the guard at L161 (not a
Timestamp); a timestamp at or below the current checkpoint is ignored (L162). -/
def saveLastTimestamp (last : Option Nat) (ts : Option Nat) : Option Nat × List Nat :=
  match ts with
  | none => (last, [])
  | some t =>
    match last with
    | some l => if t ≤ l then (some l, []) else (some t, [t])
    | none => (some t, [t])

/-- A sequence of saveLastTimestamp calls from an initial checkpoint: the final
checkpoint and the concatenated persisted writes. -/
def runSaves : Option Nat → List (Option Nat) → Option Nat × List Nat
  | last, [] => (last, [])
  | last, ts :: rest =>
    let s := saveLastTimestamp last ts
    let r := runSaves s.1 rest
    (r.1, s.2 ++ r.2)

/-- queryStartTime (src/hedera-hcs.js L222-L229): resume from checkpoint plus
one nanosecond, or from about one minute before now when no checkpoint exists. -/
def queryStartTime (last : Option Nat) (now : Nat) : Nat :=
  match last with
  | some l => l + 1
  | none => now - 60000

/-- Modelled from the spec: subscribe(channelId, fromTimestamp, onMessage)
delivers only envelopes with consensus timestamp at or after fromTimestamp
(spec section 4.1); the source configures this through
TopicMessageQuery.setStartTime at src/hedera-hcs.js L232-L234. -/
def delivered (last : Option Nat) (now : Nat) (ts : Nat) : Bool :=
  queryStartTime last now ≤ ts

/-- An inbound envelope as seen by the subscription callback. -/
structure InMsg where
  ts : Nat
  msg : Hcs10Msg
  seq : Nat
deriving DecidableEq

/-- The transport side effects of the subscription callback
(src/hedera-hcs.js L237-L252) over a stream of envelopes: each delivered
envelope is handed to handleConnectionRequest. -/
def listenerEffects (agentInbound : String) (last : Option Nat) (now : Nat)
    (renv : Nat → RouterEnv) (msgs : List InMsg) : List TEffect :=
  msgs.flatMap (fun e =>
    if delivered last now e.ts then
      (handleConnectionRequest agentInbound e.msg e.seq (renv e.seq)).2
    else [])

theorem listenerEffects_filter (agentInbound : String) (c now : Nat)
    (renv : Nat → RouterEnv) (msgs : List InMsg) :
    listenerEffects agentInbound (some c) now renv msgs =
      listenerEffects agentInbound (some c) now renv
        (msgs.filter (fun e => decide (c < e.ts))) := by
  induction msgs with
  | nil => rfl
  | cons e rest ih =>
    simp only [listenerEffects, List.flatMap_cons, List.filter_cons] at ih ⊢
    by_cases h : c < e.ts
    · rw [if_pos (show delivered (some c) now e.ts = true by
          simp only [delivered, queryStartTime, decide_eq_true_eq]; omega),
        if_pos (by simpa using h)]
      simp only [List.flatMap_cons]
      rw [if_pos (show delivered (some c) now e.ts = true by
          simp only [delivered, queryStartTime, decide_eq_true_eq]; omega)]
      exact congrArg _ ih
    · rw [if_neg (show ¬ delivered (some c) now e.ts = true by
          simp only [delivered, queryStartTime, decide_eq_true_eq]; omega),
        if_neg (by simpa using h)]
      simpa using ih

theorem runSaves_chain (saves : List (Option Nat)) :
    ∀ l : Nat, List.Chain (· < ·) l (runSaves (some l) saves).2 := by
  induction saves with
  | nil => intro l; exact List.Chain.nil
  | cons ts rest ih =>
    intro l
    match ts with
    | none => exact ih l
    | some t =>
      by_cases h : t ≤ l
      · simpa [runSaves, saveLastTimestamp, h] using ih l
      · simp only [runSaves, saveLastTimestamp, if_neg h]
        exact List.Chain.cons (by omega) (ih t)

theorem runSaves_chain_none (saves : List (Option Nat)) :
    List.Chain' (· < ·) (runSaves none saves).2 := by
  induction saves with
  | nil => exact List.chain'_nil
  | cons ts rest ih =>
    cases ts with
    | none => simpa [runSaves, saveLastTimestamp] using ih
    | some t =>
      have h := runSaves_chain rest t
      show List.Chain' (· < ·) ((saveLastTimestamp none (some t)).2 ++ (runSaves (some t) rest).2)
      exact h

/-- The subscription callback (src/hedera-hcs.js L237-L252) run over a stream
of delivered envelopes, threading the evolving in-memory checkpoint: every
delivered envelope is handed to handleConnectionRequest unconditionally (the
callback performs no comparison of message.consensusTimestamp against
lastProcessedTimestamp), and only afterwards is the checkpoint advanced via
saveLastTimestamp.  Under spec section 4.1 the transport delivers
at-least-once, so the stream may contain a redelivered copy of an envelope
already processed in the same subscription. -/
def listenerRun (agentInbound : String) (renv : Nat → RouterEnv) :
    Option Nat → List InMsg → Option Nat × List TEffect
  | last, [] => (last, [])
  | last, e :: rest =>
    let effs := (handleConnectionRequest agentInbound e.msg e.seq (renv e.seq)).2
    let last2 := (saveLastTimestamp last (some e.ts)).1
    let r := listenerRun agentInbound renv last2 rest
    (r.1, effs ++ r.2)

/-- C4 (code bug): the persisted checkpoint itself only advances strictly
(runSaves_chain), but replaying an already-processed envelope does re-trigger
RequestRouter side effects.  The subscription callback at src/hedera-hcs.js
L237-L252 hands every delivered envelope to handleConnectionRequest without
comparing its consensus timestamp to the checkpoint; only the subscription
start time filters, and spec section 4.1 stipulates at-least-once delivery
after a reconnect.  Concretely: from checkpoint 50, processing a valid
connection_request with timestamp 100 advances the checkpoint to 100, and the
redelivered copy of that same envelope, whose timestamp 100 is at or below the
checkpoint 100, creates a second connection channel, publishes a second
connection_created ack and dispatches the audit again. -/
theorem C4_replay_retriggers_side_effects :
    (saveLastTimestamp (some 50) (some 100)).1 = some 100 ∧
    listenerRun "0.0.500" (fun _ => ⟨some "0.0.777", some 1, some 2⟩) (some 50)
      [⟨100, ⟨some "hcs-10", some "connection_request", some "0.0.111@0.0.222",
          some "audit 0.0.999 please"⟩, 7⟩,
       ⟨100, ⟨some "hcs-10", some "connection_request", some "0.0.111@0.0.222",
          some "audit 0.0.999 please"⟩, 7⟩] =
      (some 100,
       [.createdChannel "0.0.777", .submittedMsg "0.0.500" "connection_created" true,
        .dispatchedAudit "0.0.999" "0.0.777",
        .createdChannel "0.0.777", .submittedMsg "0.0.500" "connection_created" true,
        .dispatchedAudit "0.0.999" "0.0.777"]) := by
  exact ⟨rfl, by decide⟩

/-! ## ResultDelivery: sendAuditResult (src/hedera-hcs.js L281-L310) -/

/-- sendAuditResult (src/hedera-hcs.js L281-L310): inscribes the serialized
report via inscribeDataToTopic and then appends the short HRL reference message
on the connection topic via submitMessageToTopic.  A null from the inscriber is
checked at L290 and rethrown by the catch at L306-L309 (.error); the result of
the final submitMessageToTopic call at L302 is discarded, so a failed final
append (frameSubmitResult = none, the only failure mode of that total function)
is not detected and the function returns normally. -/
def sendAuditResult (ienv : InscribeEnv) (frameSubmitResult : Option Nat)
    (connectionTopicId : String) (resultData : List Nat) : Except String Unit :=
  match (inscribeDataToTopic ienv resultData).1 with
  | none => .error "Failed to inscribe audit report data using HCS-1."
  | some _tid =>
    match frameSubmitResult with
    | some _ => .ok ()
    | none => .ok ()

/-- C6 (code bug): when the chunked store succeeds but the final short
reference-message append fails (submitMessageToTopic returns null),
sendAuditResult still returns normally, reporting successful delivery; only a
store failure propagates (shown at a failing topic creation). -/
theorem C6_append_failure_swallowed :
    sendAuditResult ⟨true, true, some "0.0.888", fun _ => true⟩ none "0.0.777" [1, 2, 3] = .ok () ∧
    sendAuditResult ⟨true, false, some "0.0.888", fun _ => true⟩ (some 1) "0.0.777" [1, 2, 3] =
      .error "Failed to inscribe audit report data using HCS-1." :=
  ⟨rfl, rfl⟩

/-! ## Dynamic test runner: runForgeTestInDocker (src/audit-tools.js L311-L468) -/

/-- A fetched source file: a (path, content) pair. -/
structure SrcFile where
  path : String
  content : String
deriving DecidableEq

/-- The result object of a tool collaborator call:
{success, output?, error?}. -/
structure ToolResult where
  success : Bool
  output : Option String
  error : Option String
deriving DecidableEq

/-- The argument object of runForgeTestInDocker (spec section 6: the
dynamic-test-runner collaborator contract). -/
structure ForgeArgs where
  testContractCode : Option String
  testContractFileName : Option String
  originalContractFileName : Option String
  files : Option (List SrcFile)
deriving DecidableEq

/-- JS optional-chained endsWith: testContractFileName?.endsWith(suffix);
undefined yields a falsy result. -/
def jsEndsWith : Option String → String → Bool
  | none, _ => false
  | some s, suf => decide (suf.toList <:+ s.toList)

/-- runForgeTestInDocker (src/audit-tools.js L311-L468).  The source
destructures only testContractCode, testContractFileName and files from its
argument object (L311-L315); originalContractFileName is nevertheless read at
L323, where it is an unbound identifier, so after the two input validations
pass, execution throws ReferenceError before any Docker work; the rest of the
body is unreachable. -/
def runForgeTestInDocker (args : ForgeArgs) : Except JsError ToolResult :=
  if jsEndsWith args.testContractFileName ".t.sol" = false then
    .ok ⟨false, none, some "Test filename must end with '.t.sol'."⟩
  else if args.files = none ∨ args.files = some [] then
    .ok ⟨false, none, some "Missing or invalid 'files' array argument for Forge test."⟩
  else
    .error (.referenceError "originalContractFileName is not defined")

/-- C7 (code bug): on a well-formed invocation (test file name ending in
.t.sol, non-empty fetched file set containing a file matching
originalContractFileName), runForgeTestInDocker does not invoke the
dynamic-test-runner collaborator and return its result verbatim: it throws
ReferenceError at src/audit-tools.js L323 because originalContractFileName is
missing from the destructured parameter list. -/
theorem C7_forge_runner_reference_error :
    runForgeTestInDocker
      ⟨some "contract ExploitTest is Test", some "Exploit.t.sol", some "Token.sol",
        some [⟨"contracts/Token.sol", "contract Token"⟩]⟩ =
    .error (.referenceError "originalContractFileName is not defined") := by
  rfl

/-! ## ToolSessionOrchestrator: processAuditRequest (src/agent.js L24-L191) -/

/-- A function call requested by the reasoning engine, with the argument
fields the orchestrator reads (absent arguments are none). -/
structure FnCall where
  name : String
  contractId : Option String
  toolName : Option String
  testContractCode : Option String
  testContractFileName : Option String
  originalContractFileName : Option String
  report : Option Unit
deriving DecidableEq

/-- One candidate of an engine response: candidate.finishReason and the
function calls collected from candidate.content.parts (none models missing
content/parts, under which the for-of at src/agent.js L86 throws). -/
structure Candidate where
  finishReason : Option String
  functionCalls : Option (List FnCall)
deriving DecidableEq

/-- An engine response: result.response, none models an empty response and
some none a response with no candidates (src/agent.js L43-L53). -/
structure EngineResp where
  response : Option (Option Candidate)
deriving DecidableEq

/-- The result object of the fetch-source collaborator (fetchVerifiedSource,
src/utils.js): {success, files, mainFileName} or {success:false, error};
fetchVerifiedSource is total (it catches everything internally). -/
structure FetchResult where
  success : Bool
  files : List SrcFile
  mainFileName : String
  error : Option String
deriving DecidableEq

/-- The collaborator environment of one session: the engine response before
iteration k (engine 0 answers the initial prompt, engine (k+1) answers the
k-th batch of function responses), and the external tool behaviours, indexed
by the iteration in which they are invoked. -/
structure AgentEnv where
  engine : Nat → EngineResp
  fetch : Nat → String → FetchResult
  staticTool : Nat → String → List SrcFile → String → Except JsError ToolResult
  dynTest : Nat → ForgeArgs → Except JsError ToolResult

/-- The mutable session state of the loop (src/agent.js L36-L37):
fetchedFiles and fetchedMainFilePath, both initialized to null. -/
structure AgentState where
  fetchedFiles : Option (List SrcFile)
  fetchedMainFilePath : Option String
deriving DecidableEq

/-- An observable event of a session run. -/
inductive Ev
  | fetchEv (contractId : String) (ok : Bool)
  | staticEv (toolName : String)
  | dynEv (testFileName : String)
  | finalizeEv
  | engineSend
  | deliverOk
  | deliverErr (reason : String)
deriving DecidableEq

/-- The regex test at src/agent.js L105: contractIdArg is a string matching
the anchored pattern 0 period 0 period digits. -/
def validCidFormat : Option String → Bool
  | none => false
  | some s =>
    match s.toList with
    | '0' :: '.' :: '0' :: '.' :: rest => !rest.isEmpty && rest.all Char.isDigit
    | _ => false

/-- The synthetic failure result built by the catch at src/agent.js L167-L171
for an exception raised while preparing or executing a host function. -/
def hostError (msg : String) : ToolResult :=
  ⟨false, none, some ("Host execution error: " ++ msg)⟩

/-- The getSourceCode branch (src/agent.js L103-L121): format validation at
L105, the fetch-source collaborator call at L108, and the state update at
L111-L119 (a failed fetch clears both state fields). -/
def callGetSource (env : AgentEnv) (k : Nat) (c : FnCall) :
    AgentState × List Ev × ToolResult :=
  if validCidFormat c.contractId = false then
    (⟨none, none⟩, [], ⟨false, none, some "Invalid contractId format"⟩)
  else if (env.fetch k (c.contractId.getD "")).success = true then
    (⟨some (env.fetch k (c.contractId.getD "")).files,
      some (env.fetch k (c.contractId.getD "")).mainFileName⟩,
     [.fetchEv (c.contractId.getD "") true], ⟨true, none, none⟩)
  else
    (⟨none, none⟩, [.fetchEv (c.contractId.getD "") false],
     ⟨false, none, (env.fetch k (c.contractId.getD "")).error⟩)

/-- The runAuditToolInDocker branch (src/agent.js L123-L139): fetched-state
guard at L124-L126 and toolName guard at L133 throw into the catch at
L167-L171; otherwise the static-tool collaborator runs, its throw likewise
caught. -/
def callStaticTool (env : AgentEnv) (k : Nat) (st : AgentState) (c : FnCall) :
    AgentState × List Ev × ToolResult :=
  if st.fetchedFiles = none ∨ jsFalsy st.fetchedMainFilePath = true then
    (st, [], hostError "Cannot execute tool 'runAuditToolInDocker' because source file data has not been successfully fetched yet.")
  else if jsFalsy c.toolName = true then
    (st, [], hostError "Missing toolName for runAuditToolInDocker")
  else
    match env.staticTool k (c.toolName.getD "") (st.fetchedFiles.getD [])
        (st.fetchedMainFilePath.getD "") with
    | .ok r => (st, [.staticEv (c.toolName.getD "")], r)
    | .error e => (st, [.staticEv (c.toolName.getD "")], hostError e.message)

/-- args.originalContractFileName || fetchedMainFilePath (src/agent.js L144),
as the string that path.includes coerces it to (a null target becomes the
string "null"). -/
def dynTarget (c : FnCall) (st : AgentState) : String :=
  (jsOr c.originalContractFileName st.fetchedMainFilePath).getD "null"

/-- The content of the first fetched file whose path includes the target
(src/agent.js L144-L145). -/
def dynOriginalContent (c : FnCall) (st : AgentState) : Option String :=
  Option.map (fun f => f.content)
    ((st.fetchedFiles.getD []).find? (fun f => strIncludes f.path (dynTarget c st)))

/-- The executeSolidityTest branch (src/agent.js L140-L166): fetched-state
guard at L141-L143, original-content lookup at L144-L149, argument checks at
L157-L159, then the dynamic-test collaborator; every throw lands in the catch
at L167-L171. -/
def callDynTest (env : AgentEnv) (k : Nat) (st : AgentState) (c : FnCall) :
    AgentState × List Ev × ToolResult :=
  if st.fetchedFiles = none ∨ st.fetchedFiles = some [] then
    (st, [], hostError "Cannot execute tool 'executeSolidityTest' because source file data has not been successfully fetched yet.")
  else if jsFalsy (dynOriginalContent c st) = true then
    (st, [], hostError ("Could not find original contract content for '" ++ dynTarget c st ++ "' in fetched files for executeSolidityTest."))
  else if jsFalsy c.testContractCode = true then
    (st, [], hostError "Missing 'testContractCode' for executeSolidityTest")
  else if jsFalsy c.testContractFileName = true then
    (st, [], hostError "Missing 'testContractFileName' for executeSolidityTest")
  else if jsFalsy (jsOr c.originalContractFileName st.fetchedMainFilePath) = true then
    (st, [], hostError "Missing 'originalContractFileName' for executeSolidityTest")
  else
    match env.dynTest k ⟨c.testContractCode, c.testContractFileName,
        jsOr c.originalContractFileName st.fetchedMainFilePath,
        some (st.fetchedFiles.getD [])⟩ with
    | .ok r => (st, [.dynEv (c.testContractFileName.getD "")], r)
    | .error e => (st, [.dynEv (c.testContractFileName.getD "")], hostError e.message)

/-- Dispatch of one non-finalize function call (the if/else-if chain at
src/agent.js L99-L175), returning the new state, the collaborator-dispatch
events and the function response sent back to the engine; an unknown name
yields the not-found failure response of L172-L175. -/
def handleCall (env : AgentEnv) (k : Nat) (st : AgentState) (c : FnCall) :
    AgentState × List Ev × ToolResult :=
  if c.name = "getSourceCode" then callGetSource env k c
  else if c.name = "runAuditToolInDocker" then callStaticTool env k st c
  else if c.name = "executeSolidityTest" then callDynTest env k st c
  else (st, [], ⟨false, none, some ("Function " ++ c.name ++ " not found.")⟩)

/-- Outcome of processing one turn's call list. -/
inductive CallsRes
  | finalized (tr : List Ev)
  | responses (st : AgentState) (tr : List Ev) (resps : List ToolResult)

/-- The delivery performed by reportFinalResult (src/agent.js L232-L251): an
error report when the report argument is missing (L234-L236), else the success
path. -/
def finDeliver (c : FnCall) : Ev :=
  match c.report with
  | none => Ev.deliverErr "Internal error: Final report object was missing."
  | some _ => Ev.deliverOk

/-- The for-of loop over a turn's function calls (src/agent.js L86-L176).
A finalizeAuditReport call ends the session at once via reportFinalResult and
return (L92-L97). -/
def processCalls (env : AgentEnv) (k : Nat) : AgentState → List FnCall → CallsRes
  | st, [] => .responses st [] []
  | st, c :: rest =>
    if c.name = "finalizeAuditReport" then
      .finalized [Ev.finalizeEv, finDeliver c]
    else
      match processCalls env k (handleCall env k st c).1 rest with
      | .finalized tr₂ => .finalized ((handleCall env k st c).2.1 ++ tr₂)
      | .responses st₂ tr₂ resps =>
        .responses st₂ ((handleCall env k st c).2.1 ++ tr₂)
          ((handleCall env k st c).2.2 :: resps)

/-- How one while-loop iteration ended. -/
inductive ExitKind
  | returned
  | brokeOut
  | condFailed
  | threw (msg : String)
deriving DecidableEq

/-- The observable result of a session run: how the loop exited, the final
value of loopCount, and the event trace. -/
structure RunResult where
  exit : ExitKind
  loops : Nat
  trace : List Ev
deriving DecidableEq

/-- Result of one loop iteration. -/
inductive StepRes
  | terminal (r : RunResult)
  | next (st : AgentState) (tr : List Ev)

/-- One iteration of the while loop (src/agent.js L39-L185), entered with
loopCount already incremented to k + 1 and result = engine k.  The STOP-with-
no-calls branch at L68-L77 reports an error but does not return; with
functionCalls undefined the for-of at L86 then throws, and with an empty list
the loop breaks at L180-L183. -/
def noCallsIn (cand : Candidate) : Prop :=
  cand.functionCalls = none ∨ cand.functionCalls = some []

instance (cand : Candidate) : Decidable (noCallsIn cand) := by
  unfold noCallsIn
  infer_instance

/-- The error report of the STOP-with-no-calls branch (src/agent.js L68-L77),
which does not return: it is emitted and the iteration continues. -/
def stopErrTrace (cand : Candidate) (st : AgentState) : List Ev :=
  if cand.finishReason = some "STOP" ∧ noCallsIn cand then
    [.deliverErr (if st.fetchedFiles = none then
        "AI stopped before source code could be fetched."
      else "AI stopped unexpectedly before generating final report.")]
  else []

def step (env : AgentEnv) (k : Nat) (st : AgentState) : StepRes :=
  match (env.engine k).response with
  | none => .terminal ⟨.returned, k + 1, [.deliverErr "AI response was empty."]⟩
  | some none => .terminal ⟨.returned, k + 1, [.deliverErr "AI response contained no candidates."]⟩
  | some (some cand) =>
    if cand.finishReason ≠ some "TOOL_CALLS" ∧ cand.finishReason ≠ some "STOP" then
      .terminal ⟨.returned, k + 1, [.deliverErr ("AI processing error: " ++
        (if jsFalsy cand.finishReason then "Unknown" else cand.finishReason.getD ""))]⟩
    else if cand.finishReason = some "TOOL_CALLS" ∧ noCallsIn cand then
      .terminal ⟨.brokeOut, k + 1, [.deliverErr "AI tool call error: No function calls provided."]⟩
    else
      match cand.functionCalls with
      | none => .terminal ⟨.threw "functionCalls is not iterable", k + 1, stopErrTrace cand st⟩
      | some calls =>
        match processCalls env k st calls with
        | .finalized tr => .terminal ⟨.returned, k + 1, stopErrTrace cand st ++ tr⟩
        | .responses st₂ tr resps =>
          if resps.isEmpty then .terminal ⟨.brokeOut, k + 1, stopErrTrace cand st ++ tr⟩
          else .next st₂ (stopErrTrace cand st ++ tr ++ [.engineSend])

/-- MAX_LOOPS (src/agent.js L35). -/
def MAX_LOOPS : Nat := 15

/-- The while loop (src/agent.js L39-L185); fuel = MAX_LOOPS - loopCount, so
the while condition loopCount < MAX_LOOPS fails exactly when fuel runs out. -/
def runLoop (env : AgentEnv) : Nat → Nat → AgentState → RunResult
  | 0, k, _ => ⟨.condFailed, k, []⟩
  | fuel + 1, k, st =>
    match step env k st with
    | .terminal r => r
    | .next st₂ tr =>
      let r := runLoop env fuel (k + 1) st₂
      ⟨r.exit, r.loops, tr ++ r.trace⟩

/-- processAuditRequest (src/agent.js L24-L191): run the loop from loopCount 0
with empty state; after the loop ends without returning or throwing, the check
at L187-L190 delivers the timed-out failure report when loopCount reached
MAX_LOOPS. -/
def processAuditRequest (env : AgentEnv) : RunResult :=
  if ((runLoop env MAX_LOOPS 0 ⟨none, none⟩).exit = .brokeOut ∨
      (runLoop env MAX_LOOPS 0 ⟨none, none⟩).exit = .condFailed) ∧
      MAX_LOOPS ≤ (runLoop env MAX_LOOPS 0 ⟨none, none⟩).loops then
    ⟨(runLoop env MAX_LOOPS 0 ⟨none, none⟩).exit, (runLoop env MAX_LOOPS 0 ⟨none, none⟩).loops,
      (runLoop env MAX_LOOPS 0 ⟨none, none⟩).trace ++
        [.deliverErr "Audit process timed out (max loops reached)."]⟩
  else runLoop env MAX_LOOPS 0 ⟨none, none⟩

/-! ### Session trace predicates -/

/-- Whether an event is a successful fetch-source dispatch. -/
def fetchOkEv : Ev → Bool
  | .fetchEv _ true => true
  | _ => false

/-- Whether an event is a dispatch of run-static-tool or run-dynamic-test to
its collaborator. -/
def dispatchEv : Ev → Bool
  | .staticEv _ => true
  | .dynEv _ => true
  | _ => false

/-- Whether an event is a result-delivery attempt. -/
def deliveryEv (e : Ev) : Prop :=
  e = .deliverOk ∨ ∃ s, e = .deliverErr s

/-- Every collaborator dispatch in the trace is preceded, within the trace or
by the flag b, by a successful fetch. -/
def guardedFrom : List Ev → Bool → Prop
  | [], _ => True
  | e :: tr, b => (dispatchEv e = true → b = true) ∧ guardedFrom tr (b || fetchOkEv e)

theorem guardedFrom_append {l₁ l₂ : List Ev} {b : Bool}
    (h₁ : guardedFrom l₁ b) (h₂ : guardedFrom l₂ (b || l₁.any fetchOkEv)) :
    guardedFrom (l₁ ++ l₂) b := by
  induction l₁ generalizing b with
  | nil => simpa using h₂
  | cons e tr ih =>
    refine ⟨h₁.1, ih h₁.2 ?_⟩
    have hb : ((b || fetchOkEv e) || tr.any fetchOkEv) = (b || (e :: tr).any fetchOkEv) := by
      simp [List.any_cons, Bool.or_assoc]
    rw [hb]
    exact h₂

/-- A trace of non-dispatch, non-fetch, non-finalize events satisfies every
guard predicate. -/
theorem guardedFrom_of_plain (tr : List Ev) (h : ∀ e ∈ tr, dispatchEv e = false) :
    ∀ b : Bool, guardedFrom tr b := by
  induction tr with
  | nil => intro b; trivial
  | cons e tr ih =>
    intro b
    refine ⟨fun hd => ?_, ih (fun x hx => h x (List.mem_cons_of_mem e hx)) _⟩
    have := h e (List.mem_cons_self e tr)
    rw [this] at hd
    cases hd

theorem guardedFrom_single (e : Ev) (b : Bool) (h : dispatchEv e = false) :
    guardedFrom [e] b :=
  guardedFrom_of_plain [e]
    (fun x hx => by simp only [List.mem_singleton] at hx; subst hx; exact h) b

theorem guardedFrom_two (e₁ e₂ : Ev) (b : Bool)
    (h₁ : dispatchEv e₁ = false) (h₂ : dispatchEv e₂ = false) : guardedFrom [e₁, e₂] b :=
  guardedFrom_of_plain _ (fun x hx => by
    rcases List.mem_cons.mp hx with rfl | hx
    · exact h₁
    · simp only [List.mem_singleton] at hx
      subst hx
      exact h₂) b

theorem callGetSource_inv (env : AgentEnv) (k : Nat) (c : FnCall) (b : Bool) :
    guardedFrom (callGetSource env k c).2.1 b ∧
    ((callGetSource env k c).1.fetchedFiles ≠ none →
      (b || (callGetSource env k c).2.1.any fetchOkEv) = true) ∧
    Ev.finalizeEv ∉ (callGetSource env k c).2.1 := by
  unfold callGetSource
  by_cases h1 : validCidFormat c.contractId = false
  · rw [if_pos h1]
    exact ⟨trivial, fun hf => absurd rfl hf, by simp⟩
  · rw [if_neg h1]
    by_cases h2 : (env.fetch k (c.contractId.getD "")).success = true
    · rw [if_pos h2]
      refine ⟨guardedFrom_of_plain _ (by simp [dispatchEv]) b, fun _ => ?_, by simp⟩
      simp [fetchOkEv]
    · rw [if_neg h2]
      exact ⟨guardedFrom_of_plain _ (by simp [dispatchEv]) b, fun hf => absurd rfl hf, by simp⟩

theorem callStaticTool_inv (env : AgentEnv) (k : Nat) (st : AgentState) (c : FnCall)
    (b : Bool) (hst : st.fetchedFiles ≠ none → b = true) :
    guardedFrom (callStaticTool env k st c).2.1 b ∧
    ((callStaticTool env k st c).1.fetchedFiles ≠ none →
      (b || (callStaticTool env k st c).2.1.any fetchOkEv) = true) ∧
    Ev.finalizeEv ∉ (callStaticTool env k st c).2.1 := by
  unfold callStaticTool
  by_cases h1 : st.fetchedFiles = none ∨ jsFalsy st.fetchedMainFilePath = true
  · rw [if_pos h1]
    exact ⟨trivial, fun hf => by simp [hst hf], by simp⟩
  · rw [if_neg h1]
    have hne : st.fetchedFiles ≠ none := fun h => h1 (Or.inl h)
    by_cases h2 : jsFalsy c.toolName = true
    · rw [if_pos h2]
      exact ⟨trivial, fun hf => by simp [hst hf], by simp⟩
    · rw [if_neg h2]
      cases hm : env.staticTool k (c.toolName.getD "") (st.fetchedFiles.getD [])
          (st.fetchedMainFilePath.getD "") with
      | ok r =>
        exact ⟨⟨fun _ => hst hne, trivial⟩, fun hf => by simp [fetchOkEv, hst hf], by simp⟩
      | error e =>
        exact ⟨⟨fun _ => hst hne, trivial⟩, fun hf => by simp [fetchOkEv, hst hf], by simp⟩

theorem callDynTest_inv (env : AgentEnv) (k : Nat) (st : AgentState) (c : FnCall)
    (b : Bool) (hst : st.fetchedFiles ≠ none → b = true) :
    guardedFrom (callDynTest env k st c).2.1 b ∧
    ((callDynTest env k st c).1.fetchedFiles ≠ none →
      (b || (callDynTest env k st c).2.1.any fetchOkEv) = true) ∧
    Ev.finalizeEv ∉ (callDynTest env k st c).2.1 := by
  unfold callDynTest
  by_cases h1 : st.fetchedFiles = none ∨ st.fetchedFiles = some []
  · rw [if_pos h1]
    exact ⟨trivial, fun hf => by simp [hst hf], by simp⟩
  · rw [if_neg h1]
    have hne : st.fetchedFiles ≠ none := fun h => h1 (Or.inl h)
    by_cases h2 : jsFalsy (dynOriginalContent c st) = true
    · rw [if_pos h2]
      exact ⟨trivial, fun hf => by simp [hst hf], by simp⟩
    · rw [if_neg h2]
      by_cases h3 : jsFalsy c.testContractCode = true
      · rw [if_pos h3]
        exact ⟨trivial, fun hf => by simp [hst hf], by simp⟩
      · rw [if_neg h3]
        by_cases h4 : jsFalsy c.testContractFileName = true
        · rw [if_pos h4]
          exact ⟨trivial, fun hf => by simp [hst hf], by simp⟩
        · rw [if_neg h4]
          by_cases h5 : jsFalsy (jsOr c.originalContractFileName st.fetchedMainFilePath) = true
          · rw [if_pos h5]
            exact ⟨trivial, fun hf => by simp [hst hf], by simp⟩
          · rw [if_neg h5]
            cases hm : env.dynTest k ⟨c.testContractCode, c.testContractFileName,
                jsOr c.originalContractFileName st.fetchedMainFilePath,
                some (st.fetchedFiles.getD [])⟩ with
            | ok r =>
              exact ⟨⟨fun _ => hst hne, trivial⟩, fun hf => by simp [fetchOkEv, hst hf], by simp⟩
            | error e =>
              exact ⟨⟨fun _ => hst hne, trivial⟩, fun hf => by simp [fetchOkEv, hst hf], by simp⟩

theorem handleCall_inv (env : AgentEnv) (k : Nat) (st : AgentState) (c : FnCall)
    (b : Bool) (hst : st.fetchedFiles ≠ none → b = true) :
    guardedFrom (handleCall env k st c).2.1 b ∧
    ((handleCall env k st c).1.fetchedFiles ≠ none →
      (b || (handleCall env k st c).2.1.any fetchOkEv) = true) ∧
    Ev.finalizeEv ∉ (handleCall env k st c).2.1 := by
  unfold handleCall
  by_cases h1 : c.name = "getSourceCode"
  · rw [if_pos h1]
    exact callGetSource_inv env k c b
  · rw [if_neg h1]
    by_cases h2 : c.name = "runAuditToolInDocker"
    · rw [if_pos h2]
      exact callStaticTool_inv env k st c b hst
    · rw [if_neg h2]
      by_cases h3 : c.name = "executeSolidityTest"
      · rw [if_pos h3]
        exact callDynTest_inv env k st c b hst
      · rw [if_neg h3]
        exact ⟨trivial, fun hf => by simp [hst hf], by simp⟩

/-! ### stopErrTrace and finDeliver facts -/

theorem stopErrTrace_plain (cand : Candidate) (st : AgentState) :
    ∀ e ∈ stopErrTrace cand st,
      dispatchEv e = false ∧ fetchOkEv e = false ∧ e ≠ Ev.finalizeEv := by
  unfold stopErrTrace
  split
  · intro e he
    simp only [List.mem_singleton] at he
    subst he
    exact ⟨rfl, rfl, by simp⟩
  · intro e he
    simp at he

theorem stopErrTrace_guarded (cand : Candidate) (st : AgentState) (b : Bool) :
    guardedFrom (stopErrTrace cand st) b :=
  guardedFrom_of_plain _ (fun e he => (stopErrTrace_plain cand st e he).1) b

theorem stopErrTrace_nofin (cand : Candidate) (st : AgentState) :
    Ev.finalizeEv ∉ stopErrTrace cand st :=
  fun hm => (stopErrTrace_plain cand st _ hm).2.2 rfl

theorem stopErrTrace_any_false (cand : Candidate) (st : AgentState) :
    (stopErrTrace cand st).any fetchOkEv = false := by
  rw [List.any_eq_false]
  intro e he
  simp [(stopErrTrace_plain cand st e he).2.1]

theorem finDeliver_delivery (c : FnCall) : deliveryEv (finDeliver c) := by
  unfold finDeliver
  cases c.report with
  | none => exact Or.inr ⟨_, rfl⟩
  | some u => exact Or.inl rfl

theorem finDeliver_not_dispatch (c : FnCall) : dispatchEv (finDeliver c) = false := by
  unfold finDeliver
  cases c.report <;> rfl

theorem finDeliver_ne_finalize (c : FnCall) : finDeliver c ≠ Ev.finalizeEv := by
  unfold finDeliver
  cases c.report <;> simp

/-! ### The per-turn invariant -/

theorem processCalls_inv (env : AgentEnv) (k : Nat) :
    ∀ (calls : List FnCall) (st : AgentState) (b : Bool),
      (st.fetchedFiles ≠ none → b = true) →
      (∀ tr, processCalls env k st calls = .finalized tr →
        guardedFrom tr b ∧
          ∃ l d, tr = l ++ [Ev.finalizeEv, d] ∧ Ev.finalizeEv ∉ l ∧ deliveryEv d) ∧
      (∀ st₂ tr resps, processCalls env k st calls = .responses st₂ tr resps →
        guardedFrom tr b ∧ Ev.finalizeEv ∉ tr ∧
          (st₂.fetchedFiles ≠ none → (b || tr.any fetchOkEv) = true)) := by
  intro calls
  induction calls with
  | nil =>
    intro st b hst
    constructor
    · intro tr h
      cases h
    · intro st₂ tr resps h
      cases h
      exact ⟨trivial, by simp, fun hf => by simp [hst hf]⟩
  | cons c rest ih =>
    intro st b hst
    by_cases hfin : c.name = "finalizeAuditReport"
    · constructor
      · intro tr h
        unfold processCalls at h
        rw [if_pos hfin] at h
        cases h
        exact ⟨guardedFrom_two _ _ b rfl (finDeliver_not_dispatch c), [], finDeliver c, rfl,
          by simp, finDeliver_delivery c⟩
      · intro st₂ tr resps h
        unfold processCalls at h
        rw [if_pos hfin] at h
        cases h
    · have hc := handleCall_inv env k st c b hst
      have ihr := ih (handleCall env k st c).1 (b || (handleCall env k st c).2.1.any fetchOkEv)
        hc.2.1
      constructor
      · intro tr h
        unfold processCalls at h
        rw [if_neg hfin] at h
        cases hpc : processCalls env k (handleCall env k st c).1 rest with
        | finalized tr₂ =>
          rw [hpc] at h
          cases h
          obtain ⟨hg₂, l, d, hdec, hnl, hd⟩ := ihr.1 tr₂ hpc
          refine ⟨guardedFrom_append hc.1 hg₂, (handleCall env k st c).2.1 ++ l, d, ?_, ?_, hd⟩
          · rw [hdec, List.append_assoc]
          · intro hm
            rcases List.mem_append.mp hm with hm | hm
            · exact hc.2.2 hm
            · exact hnl hm
        | responses st₃ tr₃ resps₃ =>
          rw [hpc] at h
          cases h
      · intro st₂ tr resps h
        unfold processCalls at h
        rw [if_neg hfin] at h
        cases hpc : processCalls env k (handleCall env k st c).1 rest with
        | finalized tr₂ =>
          rw [hpc] at h
          cases h
        | responses st₃ tr₃ resps₃ =>
          rw [hpc] at h
          cases h
          obtain ⟨hg₂, hnf₂, hb₂⟩ := ihr.2 _ _ _ hpc
          refine ⟨guardedFrom_append hc.1 hg₂, ?_, ?_⟩
          · intro hm
            rcases List.mem_append.mp hm with hm | hm
            · exact hc.2.2 hm
            · exact hnf₂ hm
          · intro hf
            have := hb₂ hf
            rw [List.any_append]
            rw [← Bool.or_assoc]
            exact this

theorem step_inv (env : AgentEnv) (k : Nat) (st : AgentState) (b : Bool)
    (hst : st.fetchedFiles ≠ none → b = true) :
    (∀ r, step env k st = .terminal r →
      guardedFrom r.trace b ∧ r.loops = k + 1 ∧ r.exit ≠ .condFailed ∧
        (Ev.finalizeEv ∉ r.trace ∨
          ∃ l d, r.trace = l ++ [Ev.finalizeEv, d] ∧ Ev.finalizeEv ∉ l ∧ deliveryEv d ∧
            r.exit = .returned)) ∧
    (∀ st₂ tr, step env k st = .next st₂ tr →
      guardedFrom tr b ∧ Ev.finalizeEv ∉ tr ∧
        (st₂.fetchedFiles ≠ none → (b || tr.any fetchOkEv) = true)) := by
  constructor
  · intro r h
    unfold step at h
    cases hresp : (env.engine k).response with
    | none =>
      rw [hresp] at h
      cases h
      exact ⟨guardedFrom_single _ b rfl, rfl, by simp, Or.inl (by simp)⟩
    | some oc =>
      rw [hresp] at h
      cases oc with
      | none =>
        cases h
        exact ⟨guardedFrom_single _ b rfl, rfl, by simp, Or.inl (by simp)⟩
      | some cand =>
        dsimp only at h
        by_cases habn : cand.finishReason ≠ some "TOOL_CALLS" ∧ cand.finishReason ≠ some "STOP"
        · rw [if_pos habn] at h
          cases h
          exact ⟨guardedFrom_single _ b rfl, rfl, by simp, Or.inl (by simp)⟩
        · rw [if_neg habn] at h
          by_cases htc : cand.finishReason = some "TOOL_CALLS" ∧ noCallsIn cand
          · rw [if_pos htc] at h
            cases h
            exact ⟨guardedFrom_single _ b rfl, rfl, by simp, Or.inl (by simp)⟩
          · rw [if_neg htc] at h
            cases hfc : cand.functionCalls with
            | none =>
              rw [hfc] at h
              cases h
              exact ⟨stopErrTrace_guarded cand st b, rfl, by simp,
                Or.inl (stopErrTrace_nofin cand st)⟩
            | some calls =>
              rw [hfc] at h
              dsimp only at h
              cases hpc : processCalls env k st calls with
              | finalized tr₂ =>
                rw [hpc] at h
                cases h
                obtain ⟨hg, l, d, hdec, hnl, hd⟩ :=
                  ((processCalls_inv env k) calls st b hst).1 tr₂ hpc
                refine ⟨guardedFrom_append (stopErrTrace_guarded cand st b) ?_, rfl, by simp,
                  Or.inr ⟨stopErrTrace cand st ++ l, d, ?_, ?_, hd, rfl⟩⟩
                · rw [show (b || (stopErrTrace cand st).any fetchOkEv) = b by
                    rw [stopErrTrace_any_false]; simp]
                  exact hg
                · rw [hdec, List.append_assoc]
                · intro hm
                  rcases List.mem_append.mp hm with hm | hm
                  · exact stopErrTrace_nofin cand st hm
                  · exact hnl hm
              | responses st₃ tr₃ resps₃ =>
                rw [hpc] at h
                dsimp only at h
                by_cases hre : resps₃.isEmpty = true
                · rw [if_pos hre] at h
                  cases h
                  obtain ⟨hg, hnf, _⟩ := ((processCalls_inv env k) calls st b hst).2 st₃ tr₃ resps₃ hpc
                  refine ⟨guardedFrom_append (stopErrTrace_guarded cand st b) ?_, rfl, by simp, Or.inl ?_⟩
                  · rw [show (b || (stopErrTrace cand st).any fetchOkEv) = b by
                      rw [stopErrTrace_any_false]; simp]
                    exact hg
                  · intro hm
                    rcases List.mem_append.mp hm with hm | hm
                    · exact stopErrTrace_nofin cand st hm
                    · exact hnf hm
                · rw [if_neg hre] at h
                  cases h
  · intro st₂ tr h
    unfold step at h
    cases hresp : (env.engine k).response with
    | none =>
      rw [hresp] at h
      cases h
    | some oc =>
      rw [hresp] at h
      cases oc with
      | none => cases h
      | some cand =>
        dsimp only at h
        by_cases habn : cand.finishReason ≠ some "TOOL_CALLS" ∧ cand.finishReason ≠ some "STOP"
        · rw [if_pos habn] at h
          cases h
        · rw [if_neg habn] at h
          by_cases htc : cand.finishReason = some "TOOL_CALLS" ∧ noCallsIn cand
          · rw [if_pos htc] at h
            cases h
          · rw [if_neg htc] at h
            cases hfc : cand.functionCalls with
            | none =>
              rw [hfc] at h
              cases h
            | some calls =>
              rw [hfc] at h
              dsimp only at h
              cases hpc : processCalls env k st calls with
              | finalized tr₂ =>
                rw [hpc] at h
                cases h
              | responses st₃ tr₃ resps₃ =>
                rw [hpc] at h
                dsimp only at h
                by_cases hre : resps₃.isEmpty = true
                · rw [if_pos hre] at h
                  cases h
                · rw [if_neg hre] at h
                  cases h
                  obtain ⟨hg, hnf, hb⟩ := ((processCalls_inv env k) calls st b hst).2 _ _ _ hpc
                  refine ⟨?_, ?_, ?_⟩
                  · refine guardedFrom_append (guardedFrom_append (stopErrTrace_guarded cand st b) ?_) ?_
                    · rw [show (b || (stopErrTrace cand st).any fetchOkEv) = b by
                        rw [stopErrTrace_any_false]; simp]
                      exact hg
                    · exact guardedFrom_single _ _ rfl
                  · intro hm
                    rcases List.mem_append.mp hm with hm | hm
                    · rcases List.mem_append.mp hm with hm | hm
                      · exact stopErrTrace_nofin cand st hm
                      · exact hnf hm
                    · simp at hm
                  · intro hf
                    have := hb hf
                    simpa [List.any_append, stopErrTrace_any_false, List.any_cons,
                      List.any_nil, fetchOkEv, Bool.or_assoc] using this

/-! ### The loop invariant and the session theorems -/

theorem runLoop_inv (env : AgentEnv) :
    ∀ (fuel k : Nat) (st : AgentState) (b : Bool),
      (st.fetchedFiles ≠ none → b = true) →
      guardedFrom (runLoop env fuel k st).trace b ∧
      (runLoop env fuel k st).loops ≤ k + fuel ∧
      ((runLoop env fuel k st).exit = .condFailed → (runLoop env fuel k st).loops = k + fuel) ∧
      (Ev.finalizeEv ∉ (runLoop env fuel k st).trace ∨
        ∃ l d, (runLoop env fuel k st).trace = l ++ [Ev.finalizeEv, d] ∧ Ev.finalizeEv ∉ l ∧
          deliveryEv d ∧ (runLoop env fuel k st).exit = .returned) := by
  intro fuel
  induction fuel with
  | zero =>
    intro k st b hst
    exact ⟨trivial, Nat.le_add_right k 0, fun _ => rfl, Or.inl (fun h => nomatch h)⟩
  | succ fuel ih =>
    intro k st b hst
    cases hs : step env k st with
    | terminal r =>
      have hterm := (step_inv env k st b hst).1 r hs
      simp only [runLoop, hs]
      exact ⟨hterm.1, by omega, fun hc => absurd hc hterm.2.2.1, hterm.2.2.2⟩
    | next st₂ tr =>
      have hnext := (step_inv env k st b hst).2 st₂ tr hs
      have ihr := ih (k + 1) st₂ (b || tr.any fetchOkEv) hnext.2.2
      simp only [runLoop, hs]
      refine ⟨guardedFrom_append hnext.1 ihr.1, by omega, ?_, ?_⟩
      · intro hc
        have := ihr.2.2.1 hc
        omega
      · rcases ihr.2.2.2 with hno | ⟨l, d, hdec, hnl, hd, hex⟩
        · exact Or.inl (fun hm => (List.mem_append.mp hm).elim hnext.2.1 hno)
        · exact Or.inr ⟨tr ++ l, d, by rw [hdec, List.append_assoc],
            fun hm => (List.mem_append.mp hm).elim hnext.2.1 hnl, hd, hex⟩

theorem deliveryEv_ne_finalize {e : Ev} (h : deliveryEv e) : e ≠ Ev.finalizeEv := by
  rcases h with rfl | ⟨s, rfl⟩ <;> simp

theorem single_occ {α : Type} (a : α) :
    ∀ (l l₁ l₂ tail : List α), l ++ a :: tail = l₁ ++ a :: l₂ → a ∉ l → a ∉ tail →
      l₁ = l ∧ l₂ = tail := by
  intro l
  induction l with
  | nil =>
    intro l₁ l₂ tail h hl ht
    cases l₁ with
    | nil =>
      simp only [List.nil_append, List.cons.injEq] at h
      exact ⟨rfl, h.2.symm⟩
    | cons x l₁ =>
      simp only [List.nil_append, List.cons_append, List.cons.injEq] at h
      exact absurd (h.2 ▸ List.mem_append_right l₁ (List.mem_cons_self a l₂)) ht
  | cons y l ihl =>
    intro l₁ l₂ tail h hl ht
    cases l₁ with
    | nil =>
      simp only [List.cons_append, List.nil_append, List.cons.injEq] at h
      exact absurd (List.mem_cons.mpr (Or.inl h.1.symm)) hl
    | cons x l₁ =>
      simp only [List.cons_append, List.cons.injEq] at h
      obtain ⟨h1, h2⟩ := ihl l₁ l₂ tail h.2 (fun hm => hl (List.mem_cons_of_mem y hm)) ht
      exact ⟨by rw [h.1, h1], h2⟩

theorem guardedFrom_spec (l₁ : List Ev) :
    ∀ (b : Bool) (l₂ : List Ev) (e : Ev),
      guardedFrom (l₁ ++ e :: l₂) b → dispatchEv e = true →
      b = true ∨ ∃ e₂, e₂ ∈ l₁ ∧ fetchOkEv e₂ = true := by
  induction l₁ with
  | nil =>
    intro b l₂ e hg hd
    exact Or.inl (hg.1 hd)
  | cons x l₁ ih =>
    intro b l₂ e hg hd
    rcases ih (b || fetchOkEv x) l₂ e hg.2 hd with hb | ⟨e₂, hm, hf⟩
    · cases b with
      | true => exact Or.inl rfl
      | false =>
        refine Or.inr ⟨x, List.mem_cons_self x l₁, ?_⟩
        simpa using hb
    · exact Or.inr ⟨e₂, List.mem_cons_of_mem x hm, hf⟩

set_option maxRecDepth 16384 in
/-- C2: the session loop terminates within MAX_TURNS = 15 turns for every
engine and collaborator behaviour; when the loop runs out of turns without a
finalize, the failure-delivery path runs with a reason mentioning max loops
reached; and after a finalize event only the terminal delivery follows in the
trace — no engine send and no collaborator dispatch. -/
theorem C2_session_bounded (env : AgentEnv) :
    (processAuditRequest env).loops ≤ MAX_LOOPS ∧
    ((processAuditRequest env).exit = .condFailed →
      ∃ l msg, (processAuditRequest env).trace = l ++ [Ev.deliverErr msg] ∧
        ("max loops reached").toList <:+: msg.toList) ∧
    (∀ l₁ l₂, (processAuditRequest env).trace = l₁ ++ Ev.finalizeEv :: l₂ →
      ∀ e ∈ l₂, deliveryEv e) := by
  have hinv := runLoop_inv env MAX_LOOPS 0 ⟨none, none⟩ false (fun h => absurd rfl h)
  unfold processAuditRequest
  by_cases hcond : ((runLoop env MAX_LOOPS 0 ⟨none, none⟩).exit = ExitKind.brokeOut ∨
      (runLoop env MAX_LOOPS 0 ⟨none, none⟩).exit = ExitKind.condFailed) ∧
      MAX_LOOPS ≤ (runLoop env MAX_LOOPS 0 ⟨none, none⟩).loops
  · rw [if_pos hcond]
    have hnof : Ev.finalizeEv ∉ (runLoop env MAX_LOOPS 0 ⟨none, none⟩).trace := by
      rcases hinv.2.2.2 with hno | ⟨l, d, hdec, hnl, hd, hex⟩
      · exact hno
      · rcases hcond.1 with hb | hb <;> rw [hex] at hb <;> cases hb
    refine ⟨?_, ?_, ?_⟩
    · show (runLoop env MAX_LOOPS 0 ⟨none, none⟩).loops ≤ MAX_LOOPS
      have := hinv.2.1
      omega
    · intro _
      exact ⟨(runLoop env MAX_LOOPS 0 ⟨none, none⟩).trace, _, rfl, by decide⟩
    · intro l₁ l₂ htr e he
      exfalso
      have htr2 : (runLoop env MAX_LOOPS 0 ⟨none, none⟩).trace ++
          [Ev.deliverErr "Audit process timed out (max loops reached)."] =
          l₁ ++ Ev.finalizeEv :: l₂ := htr
      have hmem : Ev.finalizeEv ∈ (runLoop env MAX_LOOPS 0 ⟨none, none⟩).trace ++
          [Ev.deliverErr "Audit process timed out (max loops reached)."] := by
        rw [htr2]
        exact List.mem_append_right l₁ (List.mem_cons_self _ _)
      rcases List.mem_append.mp hmem with hm | hm
      · exact hnof hm
      · simp at hm
  · rw [if_neg hcond]
    refine ⟨?_, ?_, ?_⟩
    · have := hinv.2.1
      omega
    · intro hex
      exfalso
      exact hcond ⟨Or.inr hex, by have := hinv.2.2.1 hex; omega⟩
    · intro l₁ l₂ htr e he
      rcases hinv.2.2.2 with hno | ⟨l, d, hdec, hnl, hd, _⟩
      · exfalso
        apply hno
        rw [htr]
        exact List.mem_append_right l₁ (List.mem_cons_self _ _)
      · rw [hdec] at htr
        obtain ⟨h1, h2⟩ := single_occ Ev.finalizeEv l l₁ l₂ [d] htr hnl
          (by
            simp only [List.mem_singleton]
            exact fun hh => deliveryEv_ne_finalize hd hh.symm)
        rw [h2] at he
        simp only [List.mem_singleton] at he
        subst he
        exact hd

theorem handleCall_unfetched_static (env : AgentEnv) (k : Nat) (st : AgentState)
    (c : FnCall) (hnone : st.fetchedFiles = none) (hn : c.name = "runAuditToolInDocker") :
    handleCall env k st c = (st, [],
      hostError "Cannot execute tool 'runAuditToolInDocker' because source file data has not been successfully fetched yet.") := by
  unfold handleCall callStaticTool
  rw [if_neg (by rw [hn]; decide), if_pos hn, if_pos (Or.inl hnone)]

theorem handleCall_unfetched_dyn (env : AgentEnv) (k : Nat) (st : AgentState)
    (c : FnCall) (hnone : st.fetchedFiles = none) (hn : c.name = "executeSolidityTest") :
    handleCall env k st c = (st, [],
      hostError "Cannot execute tool 'executeSolidityTest' because source file data has not been successfully fetched yet.") := by
  unfold handleCall callDynTest
  rw [if_neg (by rw [hn]; decide), if_neg (by rw [hn]; decide), if_pos hn,
    if_pos (Or.inl hnone)]

set_option maxRecDepth 16384 in
/-- C3: in every session, a run-static-tool or run-dynamic-test dispatch to its
collaborator is always preceded in the trace by a successful fetch-source call;
a request of either while no fetched file set is stored produces, for that call,
a synthetic failure response telling the engine that source must be fetched
first, with no collaborator dispatch and no state change; and such a turn is
not session-fatal: the loop proceeds to the next engine turn. -/
theorem C3_fetch_before_tools (env : AgentEnv) :
    (∀ l₁ l₂ e, (processAuditRequest env).trace = l₁ ++ e :: l₂ → dispatchEv e = true →
      ∃ e₂, e₂ ∈ l₁ ∧ fetchOkEv e₂ = true) ∧
    (∀ k st c, st.fetchedFiles = none →
      c.name = "runAuditToolInDocker" ∨ c.name = "executeSolidityTest" →
      (handleCall env k st c).1 = st ∧ (handleCall env k st c).2.1 = [] ∧
      (handleCall env k st c).2.2.success = false ∧
      ∃ msg, (handleCall env k st c).2.2.error = some msg ∧
        ("source file data has not been successfully fetched").toList <:+: msg.toList) ∧
    (∀ k st c, st.fetchedFiles = none →
      (c.name = "runAuditToolInDocker" ∨ c.name = "executeSolidityTest") →
      (env.engine k).response = some (some ⟨some "TOOL_CALLS", some [c]⟩) →
      ∃ tr, step env k st = .next st tr) := by
  refine ⟨?_, ?_, ?_⟩
  · intro l₁ l₂ e htr hd
    have hinv := runLoop_inv env MAX_LOOPS 0 ⟨none, none⟩ false (fun h => absurd rfl h)
    have hguard : guardedFrom (processAuditRequest env).trace false := by
      unfold processAuditRequest
      by_cases hcond : ((runLoop env MAX_LOOPS 0 ⟨none, none⟩).exit = ExitKind.brokeOut ∨
          (runLoop env MAX_LOOPS 0 ⟨none, none⟩).exit = ExitKind.condFailed) ∧
          MAX_LOOPS ≤ (runLoop env MAX_LOOPS 0 ⟨none, none⟩).loops
      · rw [if_pos hcond]
        exact guardedFrom_append hinv.1 (guardedFrom_single _ _ rfl)
      · rw [if_neg hcond]
        exact hinv.1
    rw [htr] at hguard
    rcases guardedFrom_spec l₁ false l₂ e hguard hd with hb | h
    · cases hb
    · exact h
  · intro k st c hnone hname
    rcases hname with hn | hn
    · rw [handleCall_unfetched_static env k st c hnone hn]
      exact ⟨rfl, rfl, rfl, _, rfl, by decide⟩
    · rw [handleCall_unfetched_dyn env k st c hnone hn]
      exact ⟨rfl, rfl, rfl, _, rfl, by decide⟩
  · intro k st c hnone hname hresp
    have hnfin : ¬ c.name = "finalizeAuditReport" := by
      rcases hname with hn | hn <;> rw [hn] <;> decide
    have hpc : ∃ resp, processCalls env k st [c] = .responses st [] [resp] := by
      rcases hname with hn | hn
      · refine ⟨hostError "Cannot execute tool 'runAuditToolInDocker' because source file data has not been successfully fetched yet.", ?_⟩
        unfold processCalls
        rw [if_neg hnfin, handleCall_unfetched_static env k st c hnone hn]
        rfl
      · refine ⟨hostError "Cannot execute tool 'executeSolidityTest' because source file data has not been successfully fetched yet.", ?_⟩
        unfold processCalls
        rw [if_neg hnfin, handleCall_unfetched_dyn env k st c hnone hn]
        rfl
    obtain ⟨resp, hpc⟩ := hpc
    unfold step
    rw [hresp]
    dsimp only
    rw [if_neg (by simp), if_neg (by simp [noCallsIn])]
    rw [hpc]
    dsimp only
    rw [if_neg (by simp)]
    exact ⟨_, rfl⟩

/-! ### Concrete witness environments -/

/-- An engine that requests an unknown function on every turn, with collaborators
that always succeed: the session exhausts all 15 turns. -/
def envLoop : AgentEnv :=
  ⟨fun _ => ⟨some (some ⟨some "TOOL_CALLS",
      some [⟨"noSuchTool", none, none, none, none, none, none⟩]⟩)⟩,
   fun _ _ => ⟨false, [], "", none⟩,
   fun _ _ _ _ => .ok ⟨true, none, none⟩,
   fun _ _ => .ok ⟨true, none, none⟩⟩

set_option maxRecDepth 65536 in
theorem C2_session_bounded_witness :
    ∃ l msg, (processAuditRequest envLoop).trace = l ++ [Ev.deliverErr msg] ∧
      ("max loops reached").toList <:+: msg.toList :=
  (C2_session_bounded envLoop).2.1 (by decide)

/-- An engine whose first turn requests run-static-tool before any fetch. -/
def envEager : AgentEnv :=
  ⟨fun _ => ⟨some (some ⟨some "TOOL_CALLS",
      some [⟨"runAuditToolInDocker", none, some "slither", none, none, none, none⟩]⟩)⟩,
   fun _ _ => ⟨false, [], "", none⟩,
   fun _ _ _ _ => .ok ⟨true, none, none⟩,
   fun _ _ => .ok ⟨true, none, none⟩⟩

set_option maxRecDepth 65536 in
theorem C3_fetch_before_tools_witness :
    (handleCall envEager 0 ⟨none, none⟩
        ⟨"runAuditToolInDocker", none, some "slither", none, none, none, none⟩).1 =
      (⟨none, none⟩ : AgentState) ∧
    (handleCall envEager 0 ⟨none, none⟩
        ⟨"runAuditToolInDocker", none, some "slither", none, none, none, none⟩).2.1 = [] ∧
    (handleCall envEager 0 ⟨none, none⟩
        ⟨"runAuditToolInDocker", none, some "slither", none, none, none, none⟩).2.2.success = false ∧
    ∃ msg, (handleCall envEager 0 ⟨none, none⟩
        ⟨"runAuditToolInDocker", none, some "slither", none, none, none, none⟩).2.2.error = some msg ∧
      ("source file data has not been successfully fetched").toList <:+: msg.toList :=
  (C3_fetch_before_tools envEager).2.1 0 ⟨none, none⟩
    ⟨"runAuditToolInDocker", none, some "slither", none, none, none, none⟩ rfl (Or.inl rfl)

end HcsAudit
